import Mathlib

/-!
Verification of the multi-task model construction and dispatch logic of
`src/models.py` (jiant).  Each Python routine relevant to the checked claims is
shallowly embedded as an executable Lean definition; tensors are nested lists,
machine failures (assertions, unbound locals, missing dict keys) are an error
type threaded through `Except`.
-/

set_option maxHeartbeats 1000000

/-- Runtime failures surfaced by the embedded Python routines: assertion
failures raised via assert_for_log or assert, unbound-local reads, missing
dictionary keys, and other runtime errors. -/
inductive PyErr where
  | assertionError (msg : String)
  | nameError (v : String)
  | keyError (k : String)
  | runtimeError (msg : String)
deriving Repr, DecidableEq

deriving instance DecidableEq for Except

/-- Whether an embedded routine failed through an assertion (assert_for_log or
a bare assert), as opposed to any other runtime failure. -/
def isAssertionFailure {γ : Type} : Except PyErr γ → Bool
  | .error (.assertionError _) => true
  | _ => false

/-! ## Classifier-name map update in build_embeddings (sep_embs_for_skip path) -/

/-- Maximum assigned index of a classifier map, as in max over the dict values
in build_embeddings. -/
def maxVal (m : List (String × Nat)) : Nat :=
  (m.map Prod.snd).foldr max 0

/-- The loop in build_embeddings that walks the sorted classifier names and
assigns `max_number_classifiers + offset` to each name not already present,
incrementing the offset after each new assignment. -/
def addNewClassifiers (maxN : Nat) : List (String × Nat) → Nat → List String → List (String × Nat)
  | m, _, [] => m
  | m, offset, c :: cs =>
    if (m.lookup c).isSome then addNewClassifiers maxN m offset cs
    else addNewClassifiers maxN (m ++ [(c, maxN + offset)]) (offset + 1) cs

/-- Classifier-map update performed by build_embeddings when sep_embs_for_skip
is enabled: starting from the loaded (or fresh) map, add every new classifier
name with a fresh monotonically increasing index. -/
def buildClassifierMap (loaded : List (String × Nat)) (classifiers : List String) :
    List (String × Nat) :=
  addNewClassifiers (maxVal loaded) loaded 1 classifiers

/-- num_reps in build_embeddings: one plus the maximum assigned index. -/
def numReps (m : List (String × Nat)) : Nat := 1 + maxVal m

/-! ## use_classifier resolution, module construction and dispatch -/

/-- A task as seen by the module builder: its name and the raw per-task
"use_classifier" configuration attribute (absent when unset). -/
structure TaskSpec where
  name : String
  useClassifierAttr : Option String
deriving Repr, DecidableEq

/-- Python `cls_task_name or task_name` in get_task_specific_params: an absent
or empty (falsy) use_classifier attribute defaults to the task's own name. -/
def resolvedUseClassifier (t : TaskSpec) : String :=
  match t.useClassifierAttr with
  | none => t.name
  | some v => if v = "" then t.name else v

/-- The names for which build_task_modules actually constructs a module: a
task's module is built exactly when its name equals its resolved
use_classifier value; otherwise construction is skipped. -/
def builtModuleNames (tasks : List TaskSpec) : List String :=
  (tasks.filter (fun t => t.name == resolvedUseClassifier t)).map TaskSpec.name

/-- MultiTaskModel._get_classifier: the module name forward dispatch looks up
for a task; the values unset, empty, and "none" fall back to the task's own
name. -/
def getClassifierKey (t : TaskSpec) : String :=
  if resolvedUseClassifier t = "" ∨ resolvedUseClassifier t = "none" then t.name
  else resolvedUseClassifier t

/-! ## build_sent_encoder -/

/-- The contextualization strategy chosen by build_sent_encoder. -/
inductive EncoderKind where
  | onlstm | prpn | bilm | bow | rnn | transformer | nullEnc
deriving Repr, DecidableEq

/-- The configuration fields of args consulted by build_sent_encoder. -/
structure SentEncArgs where
  sent_enc : String
  skip_embs : Bool
  elmo : Bool
  elmo_chars_only : Bool
  d_hid : Nat
  d_word : Nat
deriving Repr, DecidableEq

/-- build_sent_encoder from models.py: selects the encoder strategy and its
output width d_sent, in the source's branch order.  `hasLMTask` is
`any(isinstance(task, LanguageModelingTask) for task in tasks)`.  The
transformer branch leaves d_sent unassigned in the source, so returning it
raises an unbound-local error; the final branch asserts False. -/
def build_sent_encoder (a : SentEncArgs) (d_emb : Nat) (hasLMTask : Bool) :
    Except PyErr (EncoderKind × Nat) :=
  if a.sent_enc = "onlstm" then .ok (.onlstm, a.d_word)
  else if a.sent_enc = "prpn" then .ok (.prpn, a.d_word)
  else if hasLMTask ∨ a.sent_enc = "bilm" then
    if a.sent_enc = "rnn" ∨ a.sent_enc = "bilm" then
      if a.elmo ∧ ¬a.elmo_chars_only then
        .error (.assertionError "LM with full ELMo not supported")
      else .ok (.bilm, 2 * a.d_hid)
    else .error (.assertionError "Only RNNLM supported!")
  else if a.sent_enc = "bow" then
    if a.skip_embs then
      .error (.assertionError "Skip connection not currently supported with bow encoder.")
    else .ok (.bow, d_emb)
  else if a.sent_enc = "rnn" then .ok (.rnn, 2 * a.d_hid)
  else if a.sent_enc = "transformer" then .error (.nameError "d_sent")
  else if a.sent_enc = "none" then
    if a.skip_embs then .ok (.nullEnc, 0)
    else .error (.assertionError "skip_embs must be set for the none encoder")
  else .error (.assertionError "No valid sentence encoder specified.")

/-! ## build_pair_sentence_module -/

/-- Pooler construction arguments as passed in models.py (pool_type is absent
when the source relies on the Pooler default). -/
structure PoolerSpec where
  project : Bool
  d_inp : Nat
  d_proj : Nat
  pool_type : Option String
deriving Repr, DecidableEq

/-- The structural content of the module built by build_pair_sentence_module:
the pooler arguments, the classifier input dimension, the class count, whether
a pair-attention module is attached, and whether the single-classifier (BERT)
form is used. -/
structure PairModuleSpec where
  pooler : PoolerSpec
  clsInputDim : Nat
  nClasses : Nat
  hasPairAttn : Bool
  singleClassifierForm : Bool
deriving Repr, DecidableEq

/-- build_pair_sentence_module from models.py, restricted to the structural
data: pooler and d_out per the attention/BERT branch, then the classifier is
built over 4*d_out in the non-BERT concatenation scheme, with the WiC variant
adding d_inp to d_out first (or tripling d_out under BERT). -/
def build_pair_sentence_module (useBert attn isWiC : Bool)
    (dInp dHidAttn dProj nClasses : Nat) : PairModuleSpec :=
  let pooler : PoolerSpec :=
    if attn ∧ ¬useBert then ⟨false, dHidAttn, dHidAttn, none⟩
    else ⟨¬useBert, dInp, dProj, some (if useBert then "first" else "max")⟩
  let dOut : Nat :=
    if attn ∧ ¬useBert then dHidAttn * 2
    else if useBert then dInp else dProj
  if useBert then
    ⟨pooler, if isWiC then dOut * 3 else dOut, nClasses, false, true⟩
  else
    ⟨pooler, 4 * (if isWiC then dOut + dInp else dOut), nClasses, attn, false⟩

/-! ## Bidirectional LM forward -/

/-- Forward-direction features in _lm_forward: the first `split` encoder
features, with any residual skip-embedding features beyond `2*split` appended
(when there are none, the append is empty). -/
def sliceFwd {α : Type} (split : Nat) (feat : List α) : List α :=
  feat.take split ++ feat.drop (2 * split)

/-- Backward-direction features in _lm_forward: features split..2*split, with
the same residual features beyond `2*split` appended. -/
def sliceBwd {α : Type} (split : Nat) (feat : List α) : List α :=
  (feat.drop split).take split ++ feat.drop (2 * split)

/-- Output record of _lm_forward. -/
structure LMOut (β : Type) where
  n_exs : Nat
  logits : List (List β)
  loss : Rat
deriving Repr

/-- MultiTaskModel._lm_forward: asserts the phrase layer is the BiLM encoder,
splits encoder features by direction, appends residual skip features to both
halves, projects both halves through the one hid2voc module, concatenates the
direction logits and the forward/backward targets, asserts equal counts, and
takes a single cross-entropy with the padding index ignored.  The encoder
output `sent` and the per-element loss semantics (`crossEntropy`, matching
F.cross_entropy with ignore_index) are external collaborators. -/
def lmForward {α β : Type} (phraseLayerIsBiLM : Bool) (split padIdx : Nat)
    (hid2voc : List α → List β)
    (crossEntropy : List (List β) → List Nat → Nat → Rat)
    (sent : List (List (List α)))
    (targsF targsB : List (List Nat)) : Except PyErr (LMOut β) :=
  if phraseLayerIsBiLM then
    let bSize := targsF.length
    let seqLen := (targsF.headD []).length
    let nPad := (targsF.flatten.filter (fun w => w == padIdx)).length
    let fwdRows := (sent.map (fun row => row.map (sliceFwd split))).flatten
    let bwdRows := (sent.map (fun row => row.map (sliceBwd split))).flatten
    let logits := fwdRows.map hid2voc ++ bwdRows.map hid2voc
    let targs := targsF.flatten ++ targsB.flatten
    if logits.length = targs.length then
      .ok ⟨(bSize * seqLen - nPad) * 2, logits, crossEntropy logits targs padIdx⟩
    else .error (.assertionError "Number of logits and targets differ!")
  else .error (.assertionError "Not using LM for language modeling task!")

/-! ## Tagger forward -/

/-- Mean cross-entropy with ignore_index, as computed by F.cross_entropy: the
mean of the per-position loss `f` over exactly the positions whose target
differs from the ignored (padding) index. -/
def ceMean {β : Type} (f : List β → Nat → Rat) (logits : List (List β))
    (targs : List Nat) (ignore : Nat) : Rat :=
  let kept := (logits.zip targs).filter (fun p => p.2 != ignore)
  ((kept.map (fun p => f p.1 p.2)).sum) / (kept.length : Rat)

/-- Output record of _tagger_forward (n_exs omitted; it is produced by an
external utility). -/
structure TagOut (β : Type) where
  logits : List (List β)
  loss : Rat
deriving Repr

/-- The flattened targets used by _tagger_forward: each row of
batch["targs"]["words"] truncated to seq_len, then flattened. -/
def tagTargs (targsWords : List (List Nat)) (seqLen : Nat) : List Nat :=
  (targsWords.map (fun r => r.take seqLen)).flatten

/-- The flattened keep-mask built by _tagger_forward from the "mask" field:
row i truncated to seq_len for i in range(b_size), stacked and flattened. -/
def tagFlatMask (mask : List (List Nat)) (bSize seqLen : Nat) : List Nat :=
  ((List.range bSize).map (fun i => (mask.getD i []).take seqLen)).flatten

/-- index_select over the nonzero positions of the flattened keep-mask, as in
_tagger_forward. -/
def selectByMask {γ : Type} (xs : List γ) (msk : List Nat) : List γ :=
  ((xs.zip msk).filter (fun p => p.2 != 0)).map Prod.fst

/-- MultiTaskModel._tagger_forward: seq_len is the raw input length minus two;
when the shared encoder is not the BiLM encoder the two boundary positions of
the encoder output are stripped, each remaining position is projected by
hid2tag and the logits flattened; the out record keeps the full flattened
logits.  When a "mask" field is supplied only nonzero-mask positions are kept
for the loss.  The loss is a cross-entropy with the padding index ignored.
When the shared encoder is the BiLM encoder the guarded block is skipped and
the later read of `logits` fails as an unbound local, not as an assertion. -/
def taggerForward {α β : Type} (encoderIsBiLM : Bool)
    (hid2tag : List α → List β) (f : List β → Nat → Rat) (padIdx : Nat)
    (inputsField : List (List Nat))
    (sent : List (List (List α)))
    (targsWords : List (List Nat))
    (maskOpt : Option (List (List Nat))) : Except PyErr (TagOut β) :=
  let bSize := inputsField.length
  let seqLen := (inputsField.headD []).length - 2
  if encoderIsBiLM then .error (.nameError "logits")
  else
    let stripped := sent.map (fun row => (row.drop 1).dropLast)
    let logits := (stripped.map (fun row => row.map hid2tag)).flatten
    let targs := tagTargs targsWords seqLen
    match maskOpt with
    | none => .ok ⟨logits, ceMean f logits targs padIdx⟩
    | some mask =>
      let flatMask := tagFlatMask mask bSize seqLen
      .ok ⟨logits, ceMean f (selectByMask logits flatMask) (selectByMask targs flatMask) padIdx⟩

/-! ## Regression predict path, single-sentence and diagnostic forwards -/

/-- A tensor of rank one or two, enough to model the logits handled by the
predict blocks. -/
inductive Tensor (β : Type) where
  | r1 (v : List β)
  | r2 (m : List (List β))
deriving Repr, DecidableEq

/-- torch ndimension(). -/
def Tensor.ndim {β : Type} : Tensor β → Nat
  | .r1 _ => 1
  | .r2 _ => 2

/-- Python truthiness of the tensor expression `logits[-1] == 1` on a rank-2
tensor: index the last row, compare elementwise with 1, then take bool() of
the resulting tensor — which raises unless the row has exactly one element. -/
def lastRowEqOne (m : List (List Rat)) : Except PyErr Bool :=
  match m.getLast? with
  | none => .error (.runtimeError "index out of range")
  | some row =>
    match row with
    | [] => .error (.runtimeError "Boolean value of Tensor with no element is ambiguous")
    | [x] => .ok (x == 1)
    | _ => .error (.runtimeError "Boolean value of Tensor with more than one element is ambiguous")

/-- torch squeeze(-1) on a rank-2 tensor: drops the trailing dimension when it
has size one (every row a singleton), otherwise leaves the tensor unchanged. -/
def squeezeLast (m : List (List Rat)) : Tensor Rat :=
  if m.all (fun r => r.length == 1) then .r1 (m.map (fun r => r.headD 0)) else .r2 m

/-- The regression predict block shared by _single_sentence_forward and
_pair_sentence_forward: when logits have more than one dimension, assert
`logits.ndimension() == 2 and logits[-1] == 1` — note `logits[-1]` indexes the
last row, so the second conjunct compares the last element's value with 1 —
then squeeze the trailing dimension; the result becomes the predictions. -/
def regressionPredict (logits : Tensor Rat) : Except PyErr (Tensor Rat) :=
  match logits with
  | .r1 v => .ok (.r1 v)
  | .r2 m =>
    match lastRowEqOne m with
    | .error e => .error e
    | .ok b =>
      if b then .ok (squeezeLast m)
      else .error (.assertionError "Invalid regression prediction dimensions!")

/-- Predictions emitted by the classification/regression forwards. -/
inductive Preds where
  | classIdx (l : List Nat)
  | scores (t : Tensor Rat)
deriving Repr, DecidableEq

/-- Output record of _single_sentence_forward. -/
structure SSOut where
  logits : List (List Rat)
  n_exs : Nat
  loss : Option Rat
  preds : Option Preds
deriving Repr, DecidableEq

/-- MultiTaskModel._single_sentence_forward: logits from the classifier, loss
computed only when labels are present, and the predict block (argmax for
classification tasks, the regression dimension check and squeeze for
regression tasks).  The encoder, classifier, cross-entropy and argmax are
external collaborators passed in. -/
def singleSentenceForward (crossEntropy : List (List Rat) → List Nat → Rat)
    (amax : List (List Rat) → List Nat) (isRegression : Bool)
    (logits : List (List Rat)) (nExs : Nat)
    (labels : Option (List Nat)) (predict : Bool) : Except PyErr SSOut :=
  let lossF : Option Rat := labels.map (fun ls => crossEntropy logits ls)
  if predict then
    if isRegression then
      match regressionPredict (.r2 logits) with
      | .error e => .error e
      | .ok t => .ok ⟨logits, nExs, lossF, some (.scores t)⟩
    else .ok ⟨logits, nExs, lossF, some (.classIdx (amax logits))⟩
  else .ok ⟨logits, nExs, lossF, none⟩

/-- Output record of _nli_diagnostic_forward (its loss is unconditional). -/
structure DiagOut where
  logits : List (List Rat)
  n_exs : Nat
  loss : Rat
  preds : Option (List Nat)
deriving Repr, DecidableEq

/-- MultiTaskModel._nli_diagnostic_forward: reads batch["labels"] and computes
the cross-entropy loss before the `"labels" in batch` presence check, so a
batch without labels fails with a KeyError. -/
def nliDiagnosticForward (crossEntropy : List (List Rat) → List Nat → Rat)
    (amax : List (List Rat) → List Nat)
    (logits : List (List Rat)) (nExs : Nat)
    (labels : Option (List Nat)) (predict : Bool) : Except PyErr DiagOut :=
  match labels with
  | none => .error (.keyError "labels")
  | some ls =>
    let predicted := amax logits
    .ok ⟨logits, nExs, crossEntropy logits ls, if predict then some predicted else none⟩

/-! ## Sequence-generation forward -/

/-- Output record of _seq_gen_forward; `decoderOut` stands for the fields
merged from the decoder's output dictionary (MT only). -/
structure SeqGenOut (δ : Type) where
  n_exs : Nat
  decoderOut : Option δ
  loss : Option Rat
  preds : Option (List Nat)
deriving Repr, DecidableEq

/-- MultiTaskModel._seq_gen_forward: the record always carries n_exs; for MT
tasks the decoder's output dictionary (which includes the loss) is merged in;
the `"targs" in batch` and `predict` branches are both `pass`, so predictions
are never produced. -/
def seqGenForward {δ : Type} (isMT : Bool) (nExs : Nat)
    (decoderOut : δ) (decoderLoss : δ → Rat) (predict : Bool) : SeqGenOut δ :=
  if isMT then ⟨nExs, some decoderOut, some (decoderLoss decoderOut), none⟩
  else ⟨nExs, none, none, none⟩

/-! # Helper lemmas -/

theorem lookup_append_single {m : List (String × Nat)} {k : String} {v : Nat}
    (x : String × Nat) (h : m.lookup k = some v) : (m ++ [x]).lookup k = some v := by
  induction m with
  | nil => simp [List.lookup] at h
  | cons a m ih =>
    rw [List.cons_append]
    rw [List.lookup] at h ⊢
    cases hk : (k == a.1) with
    | true => simpa [hk] using h
    | false =>
      simp only [hk] at h ⊢
      exact ih h

theorem lookup_some_ne_nil {m : List (String × Nat)} {k : String} {v : Nat}
    (h : m.lookup k = some v) : m ≠ [] := by
  intro he
  subst he
  simp [List.lookup] at h

theorem foldr_max_shift (l : List Nat) (a : Nat) :
    l.foldr max a = max (l.foldr max 0) a := by
  induction l with
  | nil => simp
  | cons x xs ih =>
    simp only [List.foldr, ih]
    omega

theorem foldr_max_range (n : Nat) : (List.range (n + 1)).foldr max 0 = n := by
  induction n with
  | zero => simp [List.range_succ]
  | succ n ih =>
    rw [List.range_succ, List.foldr_append]
    rw [foldr_max_shift, ih]
    simp only [List.foldr]
    omega

theorem maxVal_of_range {m : List (String × Nat)} {p : Nat}
    (h : m.map Prod.snd = List.range (p + 1)) : maxVal m = p := by
  have : maxVal m = (m.map Prod.snd).foldr max 0 := rfl
  rw [this, h]
  exact foldr_max_range p

theorem addNewClassifiers_spec (maxN : Nat) (cs : List String) :
    ∀ (m : List (String × Nat)) (offset : Nat),
      m.map Prod.snd = List.range m.length →
      m.length = maxN + offset →
      ((addNewClassifiers maxN m offset cs).map Prod.snd
          = List.range (addNewClassifiers maxN m offset cs).length)
      ∧ ∀ k v, m.lookup k = some v →
          (addNewClassifiers maxN m offset cs).lookup k = some v := by
  induction cs with
  | nil =>
    intro m offset hvals _
    exact ⟨hvals, fun _ _ h => h⟩
  | cons c cs ih =>
    intro m offset hvals hlen
    by_cases hc : (m.lookup c).isSome
    · have heq : addNewClassifiers maxN m offset (c :: cs)
          = addNewClassifiers maxN m offset cs := by
        simp [addNewClassifiers, hc]
      rw [heq]
      exact ih m offset hvals hlen
    · have heq : addNewClassifiers maxN m offset (c :: cs)
          = addNewClassifiers maxN (m ++ [(c, maxN + offset)]) (offset + 1) cs := by
        simp [addNewClassifiers, hc]
      have hmap2 : (m ++ [(c, maxN + offset)]).map Prod.snd
          = List.range (m ++ [(c, maxN + offset)]).length := by
        rw [List.map_append, hvals, List.length_append, ← hlen]
        simp [List.range_succ]
      have hlen2 : (m ++ [(c, maxN + offset)]).length = maxN + (offset + 1) := by
        simp only [List.length_append, List.length_cons, List.length_nil]
        omega
      obtain ⟨h1, h2⟩ := ih (m ++ [(c, maxN + offset)]) (offset + 1) hmap2 hlen2
      rw [heq]
      exact ⟨h1, fun k v hv => h2 k v (lookup_append_single _ hv)⟩

theorem join_length_of_rect {γ : Type} (s : Nat) :
    ∀ (x : List (List γ)), (∀ r ∈ x, r.length = s) → x.flatten.length = x.length * s := by
  intro x
  induction x with
  | nil => intro _; simp
  | cons r rs ih =>
    intro h
    simp only [List.flatten_cons, List.length_append, List.length_cons]
    rw [h r (by simp), ih (fun q hq => h q (by simp [hq]))]
    ring

theorem zip_set_filter_ignore {γ : Type} (ignore : Nat) :
    ∀ (xs : List γ) (targs : List Nat) (i : Nat) (r : γ),
      targs.get? i = some ignore →
      ((xs.set i r).zip targs).filter (fun p => p.2 != ignore)
        = (xs.zip targs).filter (fun p => p.2 != ignore) := by
  intro xs
  induction xs with
  | nil => intro targs i r _; simp
  | cons x xs ih =>
    intro targs i r hi
    cases targs with
    | nil => simp
    | cons t ts =>
      cases i with
      | zero =>
        have ht : t = ignore := by
          simpa using hi
        subst ht
        simp [List.set, List.filter]
      | succ i =>
        have hi2 : ts.get? i = some ignore := by
          simpa using hi
        have hzip := ih ts i r hi2
        simp only [List.zip] at hzip
        simp only [List.set, List.zip_cons_cons, List.filter]
        rw [hzip]

theorem selectByMask_set_zero {γ : Type} (xs : List γ) (msk : List Nat) (i : Nat) (r : γ)
    (h : msk.get? i = some 0) :
    selectByMask (xs.set i r) msk = selectByMask xs msk := by
  unfold selectByMask
  rw [zip_set_filter_ignore 0 xs msk i r h]

/-! # Claim theorems -/

/-- Claim C1: after the build_embeddings classifier-map update (run with
sep_embs_for_skip enabled) on any previously persisted map — i.e. one that
assigns indices 0..K-1 in insertion order with the default pretrain key at
index 0 — the resulting map assigns indices 0..K-1 with no gaps, maps
"@pretrain@" to index 0, preserves every previously persisted assignment,
and num_reps equals one plus the maximum assigned index, which equals the
number of map entries. -/
theorem build_embeddings_classifier_map_spec
    (loaded : List (String × Nat)) (classifiers : List String)
    (hvals : loaded.map Prod.snd = List.range loaded.length)
    (hpre : loaded.lookup "@pretrain@" = some 0) :
    ((buildClassifierMap loaded classifiers).map Prod.snd
        = List.range (buildClassifierMap loaded classifiers).length)
    ∧ (∀ i, i ∈ (buildClassifierMap loaded classifiers).map Prod.snd
        ↔ i < (buildClassifierMap loaded classifiers).length)
    ∧ (buildClassifierMap loaded classifiers).lookup "@pretrain@" = some 0
    ∧ (∀ k v, loaded.lookup k = some v
        → (buildClassifierMap loaded classifiers).lookup k = some v)
    ∧ numReps (buildClassifierMap loaded classifiers)
        = 1 + maxVal (buildClassifierMap loaded classifiers)
    ∧ numReps (buildClassifierMap loaded classifiers)
        = (buildClassifierMap loaded classifiers).length := by
  have hne : loaded ≠ [] := lookup_some_ne_nil hpre
  obtain ⟨n, hn⟩ : ∃ n, loaded.length = n + 1 := by
    cases hl : loaded with
    | nil => exact absurd hl hne
    | cons a l => exact ⟨l.length, by simp⟩
  have hmax : maxVal loaded = n := maxVal_of_range (by rw [hvals, hn])
  have hlen : loaded.length = maxVal loaded + 1 := by omega
  obtain ⟨h1, h2⟩ := addNewClassifiers_spec (maxVal loaded) classifiers loaded 1 hvals hlen
  have hres : buildClassifierMap loaded classifiers
      = addNewClassifiers (maxVal loaded) loaded 1 classifiers := rfl
  rw [hres]
  refine ⟨h1, ?_, h2 _ _ hpre, h2, rfl, ?_⟩
  · intro i
    rw [h1]
    exact List.mem_range
  · have hne2 : addNewClassifiers (maxVal loaded) loaded 1 classifiers ≠ [] :=
      lookup_some_ne_nil (h2 _ _ hpre)
    obtain ⟨p, hp⟩ : ∃ p, (addNewClassifiers (maxVal loaded) loaded 1 classifiers).length
        = p + 1 := by
      cases hl : addNewClassifiers (maxVal loaded) loaded 1 classifiers with
      | nil => exact absurd hl hne2
      | cons a l => exact ⟨l.length, by simp⟩
    have hmv : maxVal (addNewClassifiers (maxVal loaded) loaded 1 classifiers) = p :=
      maxVal_of_range (by rw [h1, hp])
    have : numReps (addNewClassifiers (maxVal loaded) loaded 1 classifiers)
        = 1 + maxVal (addNewClassifiers (maxVal loaded) loaded 1 classifiers) := rfl
    omega

/-- Witness for claim C1: the classifier-map theorem instantiated at the fresh
map assigning the pretrain key to 0 and two new task classifier names. -/
theorem build_embeddings_classifier_map_witness :
    ((buildClassifierMap [("@pretrain@", 0)] ["mnli", "sst"]).map Prod.snd
        = List.range (buildClassifierMap [("@pretrain@", 0)] ["mnli", "sst"]).length)
    ∧ (∀ i, i ∈ (buildClassifierMap [("@pretrain@", 0)] ["mnli", "sst"]).map Prod.snd
        ↔ i < (buildClassifierMap [("@pretrain@", 0)] ["mnli", "sst"]).length)
    ∧ (buildClassifierMap [("@pretrain@", 0)] ["mnli", "sst"]).lookup "@pretrain@" = some 0
    ∧ (∀ k v, List.lookup k [("@pretrain@", 0)] = some v
        → (buildClassifierMap [("@pretrain@", 0)] ["mnli", "sst"]).lookup k = some v)
    ∧ numReps (buildClassifierMap [("@pretrain@", 0)] ["mnli", "sst"])
        = 1 + maxVal (buildClassifierMap [("@pretrain@", 0)] ["mnli", "sst"])
    ∧ numReps (buildClassifierMap [("@pretrain@", 0)] ["mnli", "sst"])
        = (buildClassifierMap [("@pretrain@", 0)] ["mnli", "sst"]).length :=
  build_embeddings_classifier_map_spec [("@pretrain@", 0)] ["mnli", "sst"]
    (by decide) (by decide)

/-- Claim C2: a task whose resolved use_classifier names another task gets no
module of its own from build_task_modules; exactly one module exists per
distinct self-resolving target name; dispatch through _get_classifier fetches
the target name's module for the aliasing task; and an unset use_classifier
(absent, empty or the string "none") resolves to the task's own name at
dispatch time. -/
theorem use_classifier_aliasing
    (tasks : List TaskSpec) (hnodup : (tasks.map TaskSpec.name).Nodup)
    (t : TaskSpec) (ht : t ∈ tasks)
    (halias : resolvedUseClassifier t ≠ t.name) :
    t.name ∉ builtModuleNames tasks
    ∧ (builtModuleNames tasks).Nodup
    ∧ (∀ n, n ∈ builtModuleNames tasks
        ↔ ∃ u ∈ tasks, u.name = n ∧ resolvedUseClassifier u = n)
    ∧ (resolvedUseClassifier t ≠ "" → resolvedUseClassifier t ≠ "none" →
        getClassifierKey t = resolvedUseClassifier t)
    ∧ (∀ u : TaskSpec, (u.useClassifierAttr = none ∨ u.useClassifierAttr = some ""
          ∨ u.useClassifierAttr = some "none") → getClassifierKey u = u.name) := by
  have hmem : ∀ n, n ∈ builtModuleNames tasks
      ↔ ∃ u ∈ tasks, u.name = n ∧ resolvedUseClassifier u = n := by
    intro n
    simp only [builtModuleNames, List.mem_map, List.mem_filter, beq_iff_eq]
    constructor
    · rintro ⟨u, ⟨hu, hself⟩, hn⟩
      exact ⟨u, hu, hn, by rw [← hself, hn]⟩
    · rintro ⟨u, hu, hn, hres⟩
      exact ⟨u, ⟨hu, by rw [hn, hres]⟩, hn⟩
  have hnotmem : t.name ∉ builtModuleNames tasks := by
    rw [hmem]
    rintro ⟨u, hu, hun, hur⟩
    have hut : u = t := List.inj_on_of_nodup_map hnodup hu ht hun
    rw [hut] at hur
    exact halias hur
  have hnodup2 : (builtModuleNames tasks).Nodup := by
    have hsub : List.Sublist (builtModuleNames tasks) (tasks.map TaskSpec.name) :=
      (List.filter_sublist tasks).map TaskSpec.name
    exact hnodup.sublist hsub
  refine ⟨hnotmem, hnodup2, hmem, ?_, ?_⟩
  · intro h1 h2
    unfold getClassifierKey
    rw [if_neg]
    intro hc
    rcases hc with hc | hc
    · exact h1 hc
    · exact h2 hc
  · intro u hu
    rcases hu with h | h | h <;>
      simp [getClassifierKey, resolvedUseClassifier, h]

/-- Witness for claim C2: the "mnli"/"mnli-diagnostic" scenario, where the
diagnostic task declares use_classifier = "mnli". -/
theorem use_classifier_aliasing_witness :
    ("mnli-diagnostic" : String)
        ∉ builtModuleNames [⟨"mnli", none⟩, ⟨"mnli-diagnostic", some "mnli"⟩]
    ∧ (builtModuleNames [⟨"mnli", none⟩, ⟨"mnli-diagnostic", some "mnli"⟩]).Nodup
    ∧ (∀ n, n ∈ builtModuleNames [⟨"mnli", none⟩, ⟨"mnli-diagnostic", some "mnli"⟩]
        ↔ ∃ u ∈ [(⟨"mnli", none⟩ : TaskSpec), ⟨"mnli-diagnostic", some "mnli"⟩],
            u.name = n ∧ resolvedUseClassifier u = n)
    ∧ (resolvedUseClassifier ⟨"mnli-diagnostic", some "mnli"⟩ ≠ ""
        → resolvedUseClassifier ⟨"mnli-diagnostic", some "mnli"⟩ ≠ "none"
        → getClassifierKey ⟨"mnli-diagnostic", some "mnli"⟩
            = resolvedUseClassifier ⟨"mnli-diagnostic", some "mnli"⟩)
    ∧ (∀ u : TaskSpec, (u.useClassifierAttr = none ∨ u.useClassifierAttr = some ""
          ∨ u.useClassifierAttr = some "none") → getClassifierKey u = u.name) :=
  use_classifier_aliasing [⟨"mnli", none⟩, ⟨"mnli-diagnostic", some "mnli"⟩]
    (by decide) ⟨"mnli-diagnostic", some "mnli"⟩ (by decide) (by decide)

/-- Claim C7 (counterexample): with sent_enc = "bow" and skip_embs = false but
a language-modeling task in the task list, the builder does not succeed with
the bag-of-words encoder as the claim states: the language-modeling branch
takes precedence and its assertion fires. -/
theorem bow_encoder_claim_counterexample :
    build_sent_encoder ⟨"bow", false, false, false, 5, 7⟩ 3 true
      = .error (.assertionError "Only RNNLM supported!")
    ∧ build_sent_encoder ⟨"bow", false, false, false, 5, 7⟩ 3 true ≠ .ok (.bow, 3) := by
  exact ⟨by decide, by decide⟩

/-- Claim C7 (amended): for every configuration with sent_enc = "bow" whose
task list contains no language-modeling task, skip_embs = true makes the
builder fail with an assertion error, and skip_embs = false makes it succeed
with the bag-of-words encoder and output width d_sent = d_emb. -/
theorem bow_encoder_spec (a : SentEncArgs) (d_emb : Nat)
    (hbow : a.sent_enc = "bow") :
    (a.skip_embs = true →
      build_sent_encoder a d_emb false
        = .error (.assertionError "Skip connection not currently supported with bow encoder."))
    ∧ (a.skip_embs = false → build_sent_encoder a d_emb false = .ok (.bow, d_emb)) := by
  constructor
  · intro hsk
    simp [build_sent_encoder, hbow, hsk]
  · intro hsk
    simp [build_sent_encoder, hbow, hsk]

/-- Witness for claim C7's amended theorem at a concrete configuration. -/
theorem bow_encoder_spec_witness :
    ((⟨"bow", true, false, false, 5, 7⟩ : SentEncArgs).skip_embs = true →
      build_sent_encoder ⟨"bow", true, false, false, 5, 7⟩ 3 false
        = .error (.assertionError "Skip connection not currently supported with bow encoder."))
    ∧ ((⟨"bow", true, false, false, 5, 7⟩ : SentEncArgs).skip_embs = false →
      build_sent_encoder ⟨"bow", true, false, false, 5, 7⟩ 3 false = .ok (.bow, 3)) :=
  bow_encoder_spec ⟨"bow", true, false, false, 5, 7⟩ 3 (by decide)

/-- Claim C6: under the non-BERT (non-joint-encoding) path the pair
classifier's input width is four times the per-sentence pooled width W, where
W = 2*d_hid_attn when pair attention is on and d_proj otherwise; for the WiC
task variant the per-sentence encoder width d_inp is added to W before
quadrupling. -/
theorem build_pair_sentence_module_width (attn isWiC : Bool)
    (dInp dHidAttn dProj nClasses : Nat) :
    (build_pair_sentence_module false attn isWiC dInp dHidAttn dProj nClasses).clsInputDim
      = (if isWiC
          then 4 * ((if attn then dHidAttn * 2 else dProj) + dInp)
          else 4 * (if attn then dHidAttn * 2 else dProj)) := by
  cases attn <;> cases isWiC <;> simp [build_pair_sentence_module]

/-- Claim C3: on a bidirectional-LM forward call with batch size b and target
sequence length s (encoder output shaped accordingly), the call succeeds; the
logits' first dimension is 2*(b*s) — forward-direction logits followed by
backward-direction logits, both halves projected through the single hid2voc
module; every encoder feature beyond twice the phrase-layer half-width is
appended identically to both direction slices; and the loss is a single
cross-entropy over the concatenated logits and the concatenated
forward+backward targets with the padding index excluded. -/
theorem lm_forward_spec {α β : Type} (split padIdx : Nat)
    (hid2voc : List α → List β)
    (crossEntropy : List (List β) → List Nat → Nat → Rat)
    (sent : List (List (List α))) (targsF targsB : List (List Nat))
    (b s : Nat)
    (hsb : sent.length = b) (hFb : targsF.length = b) (hBb : targsB.length = b)
    (hss : ∀ r ∈ sent, r.length = s)
    (hFs : ∀ r ∈ targsF, r.length = s) (hBs : ∀ r ∈ targsB, r.length = s) :
    ∃ out, lmForward true split padIdx hid2voc crossEntropy sent targsF targsB = .ok out
      ∧ out.logits.length = 2 * (b * s)
      ∧ out.logits
          = ((sent.map (fun row => row.map (sliceFwd split))).flatten
              ++ (sent.map (fun row => row.map (sliceBwd split))).flatten).map hid2voc
      ∧ (∀ feat : List α, ∃ extra,
            sliceFwd split feat = feat.take split ++ extra
            ∧ sliceBwd split feat = (feat.drop split).take split ++ extra
            ∧ extra = feat.drop (2 * split))
      ∧ out.loss = crossEntropy out.logits (targsF.flatten ++ targsB.flatten) padIdx := by
  have hF : (sent.map (fun row => row.map (sliceFwd split))).flatten.length = b * s := by
    rw [join_length_of_rect s]
    · rw [List.length_map, hsb]
    · intro r hr
      obtain ⟨r0, hr0, hr0e⟩ := List.mem_map.mp hr
      rw [← hr0e, List.length_map]
      exact hss r0 hr0
  have hBw : (sent.map (fun row => row.map (sliceBwd split))).flatten.length = b * s := by
    rw [join_length_of_rect s]
    · rw [List.length_map, hsb]
    · intro r hr
      obtain ⟨r0, hr0, hr0e⟩ := List.mem_map.mp hr
      rw [← hr0e, List.length_map]
      exact hss r0 hr0
  have htF : targsF.flatten.length = b * s := by
    rw [join_length_of_rect s targsF hFs, hFb]
  have htB : targsB.flatten.length = b * s := by
    rw [join_length_of_rect s targsB hBs, hBb]
  have hcond : ((sent.map (fun row => row.map (sliceFwd split))).flatten.map hid2voc
      ++ (sent.map (fun row => row.map (sliceBwd split))).flatten.map hid2voc).length
      = (targsF.flatten ++ targsB.flatten).length := by
    simp only [List.length_append, List.length_map, hF, hBw, htF, htB]
  have hstep : lmForward true split padIdx hid2voc crossEntropy sent targsF targsB
      = if ((sent.map (fun row => row.map (sliceFwd split))).flatten.map hid2voc
            ++ (sent.map (fun row => row.map (sliceBwd split))).flatten.map hid2voc).length
          = (targsF.flatten ++ targsB.flatten).length
        then .ok ⟨(targsF.length * (targsF.headD []).length
                    - (targsF.flatten.filter (fun w => w == padIdx)).length) * 2,
                  (sent.map (fun row => row.map (sliceFwd split))).flatten.map hid2voc
                    ++ (sent.map (fun row => row.map (sliceBwd split))).flatten.map hid2voc,
                  crossEntropy
                    ((sent.map (fun row => row.map (sliceFwd split))).flatten.map hid2voc
                      ++ (sent.map (fun row => row.map (sliceBwd split))).flatten.map hid2voc)
                    (targsF.flatten ++ targsB.flatten) padIdx⟩
        else .error (.assertionError "Number of logits and targets differ!") := rfl
  rw [hstep, if_pos hcond]
  refine ⟨_, rfl, ?_, (List.map_append hid2voc _ _).symm,
      fun feat => ⟨feat.drop (2 * split), rfl, rfl, rfl⟩, rfl⟩
  show ((sent.map (fun row => row.map (sliceFwd split))).flatten.map hid2voc
      ++ (sent.map (fun row => row.map (sliceBwd split))).flatten.map hid2voc).length
      = 2 * (b * s)
  simp only [List.length_append, List.length_map, hF, hBw]
  ring

/-- Witness for claim C3 at a concrete one-position batch with three encoder
features and half-width one. -/
theorem lm_forward_spec_witness :
    ∃ out, lmForward true 1 0 (fun l : List Rat => l) (fun _ _ _ => (0:Rat))
          [[[(1:Rat), 2, 3]]] [[4]] [[5]] = .ok out
      ∧ out.logits.length = 2 * (1 * 1)
      ∧ out.logits
          = (([[[(1:Rat), 2, 3]]].map (fun row => row.map (sliceFwd 1))).flatten
              ++ ([[[(1:Rat), 2, 3]]].map (fun row => row.map (sliceBwd 1))).flatten).map
              (fun l : List Rat => l)
      ∧ (∀ feat : List Rat, ∃ extra,
            sliceFwd 1 feat = feat.take 1 ++ extra
            ∧ sliceBwd 1 feat = (feat.drop 1).take 1 ++ extra
            ∧ extra = feat.drop (2 * 1))
      ∧ out.loss = (0:Rat) :=
  lm_forward_spec 1 0 (fun l => l) (fun _ _ _ => (0:Rat)) [[[(1:Rat), 2, 3]]] [[4]] [[5]]
    1 1 (by decide) (by decide) (by decide) (by decide) (by decide) (by decide)

/-- Claim C4: on a tagging forward call (non-BiLM encoder) with raw padded
sequence length L and batch size b, the returned logits cover exactly
(L-2)*b positions — the first and last sequence positions are stripped before
the tag projection; when no keep-mask is supplied the loss is the mean
cross-entropy that excludes padding-index targets, so changing the logits at a
position whose target is the padding index leaves the loss unchanged; and when
a "mask" field is supplied only positions with nonzero mask entries contribute
to the loss. -/
theorem tagger_forward_spec {α β : Type}
    (hid2tag : List α → List β) (f : List β → Nat → Rat) (padIdx : Nat)
    (inputsField : List (List Nat)) (sent : List (List (List α)))
    (targsWords : List (List Nat)) (maskOpt : Option (List (List Nat)))
    (b L : Nat)
    (hib : inputsField.length = b)
    (hihead : (inputsField.headD []).length = L)
    (hsb : sent.length = b)
    (hss : ∀ r ∈ sent, r.length = L) :
    ∃ out,
      taggerForward false hid2tag f padIdx inputsField sent targsWords maskOpt = .ok out
      ∧ out.logits.length = (L - 2) * b
      ∧ (maskOpt = none →
          out.loss = ceMean f out.logits (tagTargs targsWords (L - 2)) padIdx
          ∧ ∀ i r, (tagTargs targsWords (L - 2)).get? i = some padIdx →
              ceMean f (out.logits.set i r) (tagTargs targsWords (L - 2)) padIdx = out.loss)
      ∧ (∀ mask, maskOpt = some mask →
          out.loss = ceMean f (selectByMask out.logits (tagFlatMask mask b (L - 2)))
              (selectByMask (tagTargs targsWords (L - 2)) (tagFlatMask mask b (L - 2))) padIdx
          ∧ ∀ i r, (tagFlatMask mask b (L - 2)).get? i = some 0 →
              ceMean f (selectByMask (out.logits.set i r) (tagFlatMask mask b (L - 2)))
                  (selectByMask (tagTargs targsWords (L - 2)) (tagFlatMask mask b (L - 2)))
                  padIdx
                = out.loss) := by
  subst hib
  subst hihead
  have hlog : ((sent.map (fun row => (row.drop 1).dropLast)).map
      (fun row => row.map hid2tag)).flatten.length
      = ((inputsField.headD []).length - 2) * inputsField.length := by
    rw [join_length_of_rect ((inputsField.headD []).length - 2)]
    · rw [List.length_map, List.length_map, hsb, Nat.mul_comm]
    · intro r hr
      obtain ⟨r1, hr1, hr1e⟩ := List.mem_map.mp hr
      obtain ⟨r0, hr0, hr0e⟩ := List.mem_map.mp hr1
      rw [← hr1e, List.length_map, ← hr0e, List.length_dropLast, List.length_drop]
      rw [hss r0 hr0]
      omega
  cases maskOpt with
  | none =>
    refine ⟨_, rfl, hlog, ?_, ?_⟩
    · intro _
      refine ⟨rfl, ?_⟩
      intro i r hir
      show ceMean f ((((sent.map (fun row => (row.drop 1).dropLast)).map
          (fun row => row.map hid2tag)).flatten).set i r)
          (tagTargs targsWords ((inputsField.headD []).length - 2)) padIdx = _
      simp only [ceMean]
      rw [zip_set_filter_ignore padIdx _ _ i r hir]
    · intro mask h
      exact Option.noConfusion h
  | some mask =>
    refine ⟨_, rfl, hlog, ?_, ?_⟩
    · intro h
      exact Option.noConfusion h
    · intro mask2 h
      injection h with h2
      subst h2
      refine ⟨rfl, ?_⟩
      intro i r hir
      rw [selectByMask_set_zero _ _ i r hir]

/-- Witness for claim C4 at a concrete one-example maskless batch of raw
length three. -/
theorem tagger_forward_spec_witness :
    ∃ out,
      taggerForward false (fun l : List Rat => l) (fun _ _ => (0:Rat)) 0
          [[9, 9, 9]] [[[(1:Rat)], [2], [3]]] [[7]] none = .ok out
      ∧ out.logits.length = (3 - 2) * 1
      ∧ ((none : Option (List (List Nat))) = none →
          out.loss = ceMean (fun _ _ => (0:Rat)) out.logits (tagTargs [[7]] (3 - 2)) 0
          ∧ ∀ i r, (tagTargs [[7]] (3 - 2)).get? i = some 0 →
              ceMean (fun _ _ => (0:Rat)) (out.logits.set i r) (tagTargs [[7]] (3 - 2)) 0
                = out.loss)
      ∧ (∀ mask, (none : Option (List (List Nat))) = some mask →
          out.loss = ceMean (fun _ _ => (0:Rat))
              (selectByMask out.logits (tagFlatMask mask 1 (3 - 2)))
              (selectByMask (tagTargs [[7]] (3 - 2)) (tagFlatMask mask 1 (3 - 2))) 0
          ∧ ∀ i r, (tagFlatMask mask 1 (3 - 2)).get? i = some 0 →
              ceMean (fun _ _ => (0:Rat))
                  (selectByMask (out.logits.set i r) (tagFlatMask mask 1 (3 - 2)))
                  (selectByMask (tagTargs [[7]] (3 - 2)) (tagFlatMask mask 1 (3 - 2))) 0
                = out.loss) :=
  tagger_forward_spec (fun l => l) (fun _ _ => (0:Rat)) 0 [[9, 9, 9]]
    [[[(1:Rat)], [2], [3]]] [[7]] none 1 3 (by decide) (by decide) (by decide) (by decide)

/-- Claim C5 (counterexample): a tagging forward call where the shared encoder
is the bidirectional-LM encoder fails, but with an unbound-local read of
`logits` — the guarded block never ran — not with an assertion-style error. -/
theorem tagger_bilm_counterexample :
    taggerForward true (fun l : List Rat => l) (fun _ _ => (0:Rat)) 0
        [[9, 9, 9]] [[[(1:Rat)], [2], [3]]] [[7]] none
      = .error (.nameError "logits")
    ∧ isAssertionFailure (taggerForward true (fun l : List Rat => l) (fun _ _ => (0:Rat)) 0
        [[9, 9, 9]] [[[(1:Rat)], [2], [3]]] [[7]] none) = false :=
  ⟨rfl, rfl⟩

/-- Claim C5 (amended): every tagging forward call with the bidirectional-LM
encoder fails, with an unbound-local error on `logits` rather than an
assertion-style error. -/
theorem tagger_bilm_fails {α β : Type} (hid2tag : List α → List β)
    (f : List β → Nat → Rat) (padIdx : Nat) (inputsField : List (List Nat))
    (sent : List (List (List α))) (targsWords : List (List Nat))
    (maskOpt : Option (List (List Nat))) :
    taggerForward true hid2tag f padIdx inputsField sent targsWords maskOpt
      = .error (.nameError "logits")
    ∧ isAssertionFailure
        (taggerForward true hid2tag f padIdx inputsField sent targsWords maskOpt) = false :=
  ⟨rfl, rfl⟩

/-- Claim C8 (code bug): the regression predict assertion does not validate
that the logits are rank 2 with a trailing singleton dimension; it compares
the last element's value (logits[-1]) with 1.  On rank-2 logits whose rows are
all singletons — the valid shape — with last score 7, the predict path of
_single_sentence_forward fails the assertion, while the same shape with last
score 1 passes and returns the squeezed scores. -/
theorem regression_predict_value_check_bug :
    Tensor.ndim (.r2 [[(5:Rat)], [(7:Rat)]]) = 2
    ∧ ([[(5:Rat)], [(7:Rat)]] : List (List Rat)).all (fun r => r.length == 1) = true
    ∧ singleSentenceForward (fun _ _ => 0) (fun _ => []) true
        [[(5:Rat)], [(7:Rat)]] 2 none true
        = .error (.assertionError "Invalid regression prediction dimensions!")
    ∧ singleSentenceForward (fun _ _ => 0) (fun _ => []) true
        [[(5:Rat)], [(1:Rat)]] 2 none true
        = .ok ⟨[[(5:Rat)], [(1:Rat)]], 2, none, some (.scores (.r1 [(5:Rat), 1]))⟩ :=
  ⟨rfl, by decide, by decide, by decide⟩

/-- Claim C9: the diagnostic forward reads batch["labels"] unconditionally —
a diagnostic batch without labels fails with a KeyError, and when labels are
present the cross-entropy loss is always computed — whereas the
single-sentence forward on a batch without labels succeeds with no loss. -/
theorem nli_diagnostic_requires_labels
    (crossEntropy : List (List Rat) → List Nat → Rat)
    (amax : List (List Rat) → List Nat)
    (logits : List (List Rat)) (nExs : Nat) (predict : Bool) :
    nliDiagnosticForward crossEntropy amax logits nExs none predict
        = .error (.keyError "labels")
    ∧ (∀ ls, ∃ d, nliDiagnosticForward crossEntropy amax logits nExs (some ls) predict
        = .ok d ∧ d.loss = crossEntropy logits ls)
    ∧ (∃ o, singleSentenceForward crossEntropy amax false logits nExs none false = .ok o
        ∧ o.loss = none) :=
  ⟨rfl, fun ls => ⟨_, rfl, rfl⟩, ⟨_, rfl, rfl⟩⟩

/-- Claim C10: the sequence-generation forward ignores the predict flag and
never emits predictions; for MT tasks the record carries n_exs together with
the decoder's merged output and its loss, and for every other
sequence-generation task the record carries only n_exs. -/
theorem seq_gen_forward_spec {δ : Type} (isMT predict : Bool) (nExs : Nat)
    (d : δ) (dl : δ → Rat) :
    (seqGenForward isMT nExs d dl predict).preds = none
    ∧ seqGenForward true nExs d dl predict = ⟨nExs, some d, some (dl d), none⟩
    ∧ seqGenForward false nExs d dl predict = ⟨nExs, none, none, none⟩ := by
  refine ⟨?_, rfl, rfl⟩
  cases isMT <;> rfl
